import Mathlib

/-!
Shallow embedding of the LiarBar match engine (backend/pokerEval.js,
backend/gameLogic.js, backend/server.js) and proofs about the frozen
claims C1..C10.

Conventions of the embedding:
* JS numbers that hold bullet/pot quantities are modelled as `Int`
  (JS numbers are signed; the code subtracts freely).
* Card values are `Nat` (they come from the loop index `i + 2`).
* JS `array.pop()` removes the last element; it is modelled by `jsPop`
  returning `Option` - a pop from an empty array yields `none`
  (JS would yield `undefined`).  Where the code pushes a popped card we
  append `Option.toList`, so a pop from an empty deck appends nothing
  (JS would push `undefined`); all states arising in play have enough
  cards in the deck, so the two behaviours agree on them.
* `Math.random()` draws are passed in as explicit oracle arguments
  (a fresh shuffled deck `newDeck`, a roll `roll : Rat`).
-/

/-- Card object from pokerEval.js `createDeck`: rank symbol, suit symbol and
numeric value 2..14 (Ace high). -/
structure Card where
  rank : String
  suit : String
  value : Nat
deriving DecidableEq, Repr

def defaultCard : Card := { rank := "", suit := "", value := 0 }

/-- `RANKS` from pokerEval.js. -/
def RANKS : List String :=
  ["2", "3", "4", "5", "6", "7", "8", "9", "10", "J", "Q", "K", "A"]

/-- `SUITS` from pokerEval.js. -/
def SUITS : List String := ["♠", "♣", "♥", "♦"]

/-- `createDeck` from pokerEval.js: for each suit, for each rank index `i`,
push the card with value `i + 2`. -/
def createDeck : List Card :=
  SUITS.flatMap (fun suit =>
    (List.range RANKS.length).map (fun i =>
      { rank := RANKS.getD i "", suit := suit, value := i + 2 }))

/-- Result object of `evaluateHand` from pokerEval.js: hand category
(1..10), tie-break value vector and description.  The `cards` field is
absent on the object built by `evaluateHand` (modelled as `[]`) and is
attached later by `findBestHand`. -/
structure EvaluatedHand where
  rank : Nat
  value : List Nat
  description : String
  cards : List Card := []
deriving DecidableEq, Repr

/-- JS `cards.every(card => card.suit === cards[0].suit)` from `isFlush`.
On the empty list `every` returns `true` without touching `cards[0]`. -/
def isFlush : List Card → Bool
  | [] => true
  | c0 :: rest => (c0 :: rest).all (fun c => c.suit == c0.suit)

/-- Ascending numeric sort, `values.sort((a, b) => a - b)` in JS. -/
def sortAsc (l : List Nat) : List Nat := l.insertionSort (· ≤ ·)

/-- Descending numeric sort, `.sort((a, b) => b - a)` in JS. -/
def sortDesc (l : List Nat) : List Nat := l.insertionSort (fun a b => b ≤ a)

/-- Scan of `isStraight` from pokerEval.js: every adjacent pair of the
ascending-sorted values differs by exactly 1. -/
def chainAsc : List Nat → Bool
  | a :: b :: rest => (a + 1 == b) && chainAsc (b :: rest)
  | _ => true

/-- `isStraight` on the sorted value list.  The JS loop returns `true` at
the first violation exactly when the sorted values are the wheel
`[2,3,4,5,14]` (its `values[4] === 14` test is subsumed by the full
equality test), so the scan is equivalent to
`chain ∨ values = [2,3,4,5,14]`. -/
def isStraightSorted (sorted : List Nat) : Bool :=
  chainAsc sorted || (sorted == [2, 3, 4, 5, 14])

/-- `straightHigh` helper from `evaluateHand`: 5 for the wheel, otherwise
`Math.max(...vals)`. -/
def straightHighSorted (sorted : List Nat) : Nat :=
  if sorted = [2, 3, 4, 5, 14] then 5 else sorted.foldl max 0

/-- Group comparator of `evaluateHand`: groups sorted by
(count descending, value descending).  `groupLe cnt a b` holds when `a`
must come no later than `b`. -/
def groupLe (cnt : Nat → Nat) (a b : Nat) : Prop :=
  cnt b < cnt a ∨ (cnt a = cnt b ∧ b ≤ a)

instance (cnt : Nat → Nat) : DecidableRel (groupLe cnt) := fun a b => by
  unfold groupLe; infer_instance

/-- Core of `evaluateHand` from pokerEval.js, written as a function of the
flush flag, the ascending-sorted value list and the rank-count function
(`rankCounts` in JS).  `Object.keys` of the integer-keyed count map
enumerates keys in ascending numeric order, which is `sorted.dedup`;
`Object.values` in the same order is `distinctAsc.map cnt`.  The
`.find(...).v` accesses are guarded by the `counts` tests in the source
(JS would crash when absent), so `getD 0` junk defaults are never used. -/
def evalFrom (flush : Bool) (sorted : List Nat) (cnt : Nat → Nat) : EvaluatedHand :=
  let isStraightHand := isStraightSorted sorted
  let distinctAsc := sorted.dedup
  let uniqueValsDesc := sortDesc distinctAsc
  let counts := sortDesc (distinctAsc.map cnt)
  let groups := distinctAsc.insertionSort (groupLe cnt)
  let straightHigh := straightHighSorted sorted
  if flush ∧ isStraightHand ∧ uniqueValsDesc.getD 0 0 = 14 ∧ uniqueValsDesc.getD 4 0 = 10 then
    { rank := 10, value := [14], description := "Royal Flush" }
  else if flush ∧ isStraightHand then
    { rank := 9, value := [straightHigh], description := "Straight Flush" }
  else if counts.getD 0 0 = 4 then
    { rank := 8,
      value := [(groups.find? (fun v => cnt v = 4)).getD 0,
                (groups.find? (fun v => cnt v = 1)).getD 0],
      description := "Four of a Kind" }
  else if counts.getD 0 0 = 3 ∧ counts.getD 1 0 = 2 then
    { rank := 7,
      value := [(groups.find? (fun v => cnt v = 3)).getD 0,
                (groups.find? (fun v => cnt v = 2)).getD 0],
      description := "Full House" }
  else if flush then
    { rank := 6, value := uniqueValsDesc, description := "Flush" }
  else if isStraightHand then
    { rank := 5, value := [straightHigh], description := "Straight" }
  else if counts.getD 0 0 = 3 then
    { rank := 4,
      value := (groups.find? (fun v => cnt v = 3)).getD 0 ::
               sortDesc (groups.filter (fun v => cnt v = 1)),
      description := "Three of a Kind" }
  else if counts.getD 0 0 = 2 ∧ counts.getD 1 0 = 2 then
    let pairs := sortDesc (groups.filter (fun v => cnt v = 2))
    { rank := 3,
      value := [pairs.getD 0 0, pairs.getD 1 0,
                (groups.find? (fun v => cnt v = 1)).getD 0],
      description := "Two Pair" }
  else if counts.getD 0 0 = 2 then
    { rank := 2,
      value := (groups.find? (fun v => cnt v = 2)).getD 0 ::
               sortDesc (groups.filter (fun v => cnt v = 1)),
      description := "Pair" }
  else
    { rank := 1, value := uniqueValsDesc, description := "High Card" }

/-- `evaluateHand` from pokerEval.js.  The JS function throws when the
input is not exactly 5 cards; the thrown case is modelled as `none`. -/
def evaluateHand (cards : List Card) : Option EvaluatedHand :=
  if cards.length = 5 then
    some (evalFrom (isFlush cards)
      (sortAsc (cards.map (·.value)))
      (fun v => (cards.map (·.value)).count v))
  else none

/-- Inner loop of `compareHands`: walk the tie-break vectors left to
right.  When the second vector is shorter, JS compares against
`undefined`, both `<` and `>` are false, and the loop falls through to
the tie result 0. -/
def cmpValues : List Nat → List Nat → Int
  | [], _ => 0
  | _ :: _, [] => 0
  | a :: t1, b :: t2 => if a > b then 1 else if a < b then -1 else cmpValues t1 t2

/-- `compareHands` from pokerEval.js: category first, then the tie-break
vector lexicographically. -/
def compareHands (hand1 hand2 : EvaluatedHand) : Int :=
  if hand1.rank > hand2.rank then 1
  else if hand1.rank < hand2.rank then -1
  else cmpValues hand1.value hand2.value

/-- `getCombinations` from pokerEval.js.  Recursion is on `k`.  The `k = 0`
clause is never reached from `findBestHand` (which starts at `k = 5` and
the `k = 1` base stops the descent).  When `arr.length < k` the JS loop
body runs zero times, giving `[]`. -/
def getCombinations : List Card → Nat → List (List Card)
  | _, 0 => []
  | arr, 1 => arr.map (fun el => [el])
  | arr, k + 2 =>
    if arr.length = k + 2 then [arr]
    else if arr.length < k + 2 then []
    else
      (List.range (arr.length - (k + 2) + 1)).flatMap (fun i =>
        (getCombinations (arr.drop (i + 1)) (k + 1)).map
          (fun combo => arr.getD i defaultCard :: combo))

/-- `findBestHand` from pokerEval.js: enumerate all 5-card subsets of
hole ∪ community and keep the maximum under `compareHands` (first seen
wins ties), attaching the winning combination as `cards`.  Returns `none`
when fewer than 5 cards are available.  Every enumerated combination has
exactly 5 cards, so `evaluateHand` never fails on them (the `none` branch
of the fold, where JS would throw, is dead). -/
def findBestHand (holeCards communityCards : List Card) : Option EvaluatedHand :=
  let allCards := holeCards ++ communityCards
  if allCards.length < 5 then none
  else
    (getCombinations allCards 5).foldl (fun best combo =>
      match evaluateHand combo with
      | some evaluation =>
        match best with
        | none => some { evaluation with cards := combo }
        | some b =>
          if compareHands evaluation b > 0 then some { evaluation with cards := combo }
          else some b
      | none => best) none

example :
    evaluateHand
      [⟨"10", "♠", 10⟩, ⟨"J", "♠", 11⟩, ⟨"Q", "♠", 12⟩, ⟨"K", "♠", 13⟩, ⟨"A", "♠", 14⟩] =
      some { rank := 10, value := [14], description := "Royal Flush" } := by decide

example :
    evaluateHand
      [⟨"2", "♦", 2⟩, ⟨"2", "♣", 2⟩, ⟨"2", "♥", 2⟩, ⟨"9", "♠", 9⟩, ⟨"9", "♦", 9⟩] =
      some { rank := 7, value := [2, 9], description := "Full House" } := by decide

/-! ## Game logic (backend/gameLogic.js) -/

/-- `PHASES` from gameLogic.js. -/
inductive Phase where
  | WAITING | ANTE | PREFLOP | FLOP | TURN | RIVER | SHOWDOWN | SHOOTING | GAME_OVER
deriving DecidableEq, Repr

/-- Seat identity. The source uses the strings `player1` / `player2`; the
server derives them itself (never from the wire), so a closed type is a
faithful model. -/
inductive Player where
  | player1 | player2
deriving DecidableEq, Repr

/-- Seat record from `addPlayer`: `{ socketId, nickname, hasSwitched }`. -/
structure PlayerInfo where
  socketId : String
  nickname : String
  hasSwitched : Bool
deriving DecidableEq, Repr

/-- Action strings (`ACTIONS` in gameLogic.js). Actions arrive from the
client as strings, so they stay strings here; `processAction` has a
default branch for anything else. -/
def ACTIONS_FOLD : String := "FOLD"
def ACTIONS_CHECK : String := "CHECK"
def ACTIONS_CALL : String := "CALL"
def ACTIONS_RAISE : String := "RAISE"
def ACTIONS_ALL_IN : String := "ALL_IN"

def MAX_BULLETS : Int := 8
def ANTE_AMOUNT : Int := 1
def RAISE_AMOUNT : Int := 1

/-- The mutable game state object of gameLogic.js. -/
structure GameState where
  phase : Phase
  player1 : Option PlayerInfo
  player2 : Option PlayerInfo
  viewers : List (String × String)
  deck : List Card
  communityCards : List Card
  pot : Int
  currentBet : Int
  player1Hand : List Card
  player2Hand : List Card
  player1Bullets : Int
  player2Bullets : Int
  player1Committed : Int
  player2Committed : Int
  activePlayer : Option Player
  lastAction : Option (Player × String)
  winner : Option Player
  loser : Option Player
  handResult : Option (EvaluatedHand × EvaluatedHand)
deriving DecidableEq, Repr

/-- `createGameState` from gameLogic.js. -/
def createGameState : GameState :=
  { phase := .WAITING, player1 := none, player2 := none, viewers := []
    deck := [], communityCards := [], pot := 0, currentBet := 0
    player1Hand := [], player2Hand := []
    player1Bullets := MAX_BULLETS, player2Bullets := MAX_BULLETS
    player1Committed := 0, player2Committed := 0
    activePlayer := none, lastAction := none
    winner := none, loser := none, handResult := none }

/-- Dynamic access `gameState[player + "Bullets"]`. -/
def bulletsOf (s : GameState) : Player → Int
  | .player1 => s.player1Bullets
  | .player2 => s.player2Bullets

def setBullets (s : GameState) : Player → Int → GameState
  | .player1, v => { s with player1Bullets := v }
  | .player2, v => { s with player2Bullets := v }

/-- Dynamic access `gameState[player + "Committed"]`. -/
def committedOf (s : GameState) : Player → Int
  | .player1 => s.player1Committed
  | .player2 => s.player2Committed

def setCommitted (s : GameState) : Player → Int → GameState
  | .player1, v => { s with player1Committed := v }
  | .player2, v => { s with player2Committed := v }

/-- Dynamic access `gameState[player + "Hand"]`. -/
def handOf (s : GameState) : Player → List Card
  | .player1 => s.player1Hand
  | .player2 => s.player2Hand

def setHand (s : GameState) : Player → List Card → GameState
  | .player1, v => { s with player1Hand := v }
  | .player2, v => { s with player2Hand := v }

/-- Access `gameState.players[player]`. -/
def playerOf (s : GameState) : Player → Option PlayerInfo
  | .player1 => s.player1
  | .player2 => s.player2

def setPlayerInfo (s : GameState) : Player → Option PlayerInfo → GameState
  | .player1, v => { s with player1 := v }
  | .player2, v => { s with player2 := v }

/-- The ternary opponent selection of processAction. -/
def opponentOf : Player → Player
  | .player1 => .player2
  | .player2 => .player1

def roleName : Player → String
  | .player1 => "player1"
  | .player2 => "player2"

/-- JS `array.pop()`: removes and returns the last element
(`undefined`, here `none`, on an empty array). -/
def jsPop (l : List Card) : Option Card × List Card := (l.getLast?, l.dropLast)

/-- `canStartGame` from gameLogic.js. -/
def canStartGame (s : GameState) : Bool :=
  s.player1.isSome && s.player2.isSome && (0 < s.player1Bullets) && (0 < s.player2Bullets)

/-- `resetGame` from gameLogic.js. -/
def resetGame (s : GameState) : GameState :=
  { s with
    player1Bullets := MAX_BULLETS, player2Bullets := MAX_BULLETS
    phase := .WAITING, deck := [], communityCards := []
    pot := 0, currentBet := 0
    player1Hand := [], player2Hand := []
    player1Committed := 0, player2Committed := 0
    activePlayer := none, lastAction := none
    winner := none, loser := none, handResult := none }

/-- `startNewHand` from gameLogic.js.  `newDeck` is the oracle for
`shuffleDeck(createDeck())` (`Math.random` driven in JS). -/
def startNewHand (newDeck : List Card) (s : GameState) : GameState :=
  if s.player1Bullets ≤ 0 ∨ s.player2Bullets ≤ 0 then
    { s with phase := .GAME_OVER }
  else
    let s := { s with
      deck := newDeck, communityCards := [], pot := 0, currentBet := 0
      player1Committed := 0, player2Committed := 0, lastAction := none
      winner := none, loser := none, handResult := none
      player1 := s.player1.map (fun p : PlayerInfo => { p with hasSwitched := false })
      player2 := s.player2.map (fun p : PlayerInfo => { p with hasSwitched := false }) }
    let anteP1 := min ANTE_AMOUNT s.player1Bullets
    let anteP2 := min ANTE_AMOUNT s.player2Bullets
    let s := { s with
      player1Bullets := s.player1Bullets - anteP1
      player2Bullets := s.player2Bullets - anteP2
      player1Committed := anteP1, player2Committed := anteP2
      pot := anteP1 + anteP2, currentBet := anteP1 }
    let p1 := jsPop s.deck
    let p2 := jsPop p1.2
    let p3 := jsPop p2.2
    let p4 := jsPop p3.2
    { s with
      deck := p4.2
      player1Hand := p1.1.toList ++ p2.1.toList
      player2Hand := p3.1.toList ++ p4.1.toList
      phase := .PREFLOP, activePlayer := some .player1 }

/-- `determineWinner` from gameLogic.js.  The catch-all branch models the
JS `TypeError` that `compareHands` would throw on a `null` best hand
(fewer than 5 cards available); it never occurs in play, where the
community always holds 5 cards at showdown. -/
def determineWinner (newDeck : List Card) (s : GameState) : GameState :=
  match findBestHand s.player1Hand s.communityCards,
        findBestHand s.player2Hand s.communityCards with
  | some hand1, some hand2 =>
    let comparison := compareHands hand1 hand2
    let s :=
      if comparison > 0 then { s with winner := some .player1, loser := some .player2 }
      else if comparison < 0 then { s with winner := some .player2, loser := some .player1 }
      else { s with winner := none, loser := none }
    let s := { s with handResult := some (hand1, hand2) }
    if s.loser.isSome then { s with phase := .SHOOTING }
    else startNewHand newDeck s
  | _, _ => s

/-- The `while (communityCards.length < 5) push(deck.pop())` loop of
`advancePhase`, with explicit fuel (at most 5 iterations are ever
needed; the JS loop terminates because pushing `undefined` also grows
the array). -/
def fillCommunity : Nat → GameState → GameState
  | 0, s => s
  | n + 1, s =>
    if s.communityCards.length < 5 then
      let p := jsPop s.deck
      fillCommunity n { s with communityCards := s.communityCards ++ p.1.toList, deck := p.2 }
    else s

/-- `advancePhase` from gameLogic.js. -/
def advancePhase (newDeck : List Card) (s : GameState) : GameState :=
  if s.player1Bullets = 0 ∧ s.player2Bullets = 0 then
    let s := fillCommunity 5 s
    determineWinner newDeck { s with phase := .SHOWDOWN }
  else
    match s.phase with
    | .PREFLOP =>
      let p1 := jsPop s.deck
      let p2 := jsPop p1.2
      let p3 := jsPop p2.2
      { s with communityCards := p1.1.toList ++ p2.1.toList ++ p3.1.toList, deck := p3.2
               phase := .FLOP, activePlayer := some .player1, lastAction := none }
    | .FLOP =>
      let p := jsPop s.deck
      { s with communityCards := s.communityCards ++ p.1.toList, deck := p.2
               phase := .TURN, activePlayer := some .player1, lastAction := none }
    | .TURN =>
      let p := jsPop s.deck
      { s with communityCards := s.communityCards ++ p.1.toList, deck := p.2
               phase := .RIVER, activePlayer := some .player1, lastAction := none }
    | .RIVER =>
      determineWinner newDeck { s with phase := .SHOWDOWN }
    | _ => s

/-- Result object of `processAction`. -/
structure ActionResult where
  success : Bool
  message : String
deriving DecidableEq, Repr

/-- `processAction` from gameLogic.js.  `newDeck` is the shuffle oracle
consumed only if a showdown tie starts a new hand. -/
def processAction (newDeck : List Card) (s : GameState) (player : Player)
    (action : String) : ActionResult × GameState :=
  if s.activePlayer ≠ some player then
    (⟨false, "Not your turn"⟩, s)
  else
    let opponent := opponentOf player
    let playerBullets := bulletsOf s player
    let playerCommitted := committedOf s player
    let opponentCommitted := committedOf s opponent
    if action = ACTIONS_FOLD then
      (⟨true, roleName player ++ " folded"⟩,
       { s with loser := some player, winner := some opponent, phase := .SHOOTING })
    else if action = ACTIONS_CHECK then
      if playerCommitted ≠ opponentCommitted then
        (⟨false, "Cannot check, must call or fold"⟩, s)
      else
        -- JS sets lastAction and then tests `if (gameState.lastAction)`,
        -- which is always truthy at that point: the phase advances
        -- unconditionally and the turn-passing else branch is dead code.
        let s := { s with lastAction := some (player, ACTIONS_CHECK) }
        (⟨true, roleName player ++ " checked"⟩, advancePhase newDeck s)
    else if action = ACTIONS_CALL then
      let toCall :=
        if opponentCommitted > playerCommitted then opponentCommitted - playerCommitted
        else 1
      if playerBullets < toCall then
        (⟨false, "Not enough bullets to call"⟩, s)
      else
        let s := setBullets s player (playerBullets - toCall)
        let s := setCommitted s player (committedOf s player + toCall)
        let s := { s with pot := s.pot + toCall, lastAction := some (player, ACTIONS_CALL) }
        if committedOf s player = committedOf s opponent then
          (⟨true, roleName player ++ " called " ++ toString toCall ++ " bullet(s)"⟩,
           advancePhase newDeck s)
        else
          (⟨true, roleName player ++ " called " ++ toString toCall ++ " bullet(s)"⟩,
           { s with activePlayer := some opponent })
    else if action = ACTIONS_RAISE then
      let raiseToCall := opponentCommitted - playerCommitted
      let totalNeeded := raiseToCall + RAISE_AMOUNT
      if playerBullets < totalNeeded then
        (⟨false, "Not enough bullets to raise"⟩, s)
      else
        let s := setBullets s player (playerBullets - totalNeeded)
        let s := setCommitted s player (committedOf s player + totalNeeded)
        let s := { s with pot := s.pot + totalNeeded }
        let s := { s with currentBet := committedOf s player
                          lastAction := some (player, ACTIONS_RAISE)
                          activePlayer := some opponent }
        (⟨true, roleName player ++ " raised " ++ toString RAISE_AMOUNT ++ " bullet"⟩, s)
    else if action = ACTIONS_ALL_IN then
      if playerBullets ≤ 0 then
        (⟨false, "No bullets to go all-in"⟩, s)
      else
        let allInAmount := playerBullets
        let s := setBullets s player 0
        let s := setCommitted s player (committedOf s player + allInAmount)
        let s := { s with pot := s.pot + allInAmount }
        let s := { s with currentBet := committedOf s player
                          lastAction := some (player, ACTIONS_ALL_IN) }
        let opponentBullets := bulletsOf s opponent
        if opponentBullets = 0 then
          (⟨true, roleName player ++ " went all-in with " ++ toString allInAmount ++ " bullets"⟩,
           advancePhase newDeck s)
        else
          (⟨true, roleName player ++ " went all-in with " ++ toString allInAmount ++ " bullets"⟩,
           { s with activePlayer := some opponent })
    else
      (⟨false, "Invalid action"⟩, s)

/-- Result object of `executeShoot`.  The no-loser early return in JS has
no `probability`/`roll` fields; they are 0 and the input roll here.  The
numeric percentage formatting of the JS messages is elided. -/
structure ShootResult where
  survived : Bool
  probability : Rat
  roll : Rat
  message : String
deriving DecidableEq, Repr

/-- `executeShoot` from gameLogic.js.  `roll` is the `Math.random()`
oracle, a value in `[0, 1)`. -/
def executeShoot (roll : Rat) (s : GameState) : ShootResult × GameState :=
  match s.loser with
  | none => (⟨true, 0, roll, "No one needs to shoot"⟩, s)
  | some loser =>
    let loserCommitted := committedOf s loser
    let deathProbability : Rat := (loserCommitted : Rat) / (MAX_BULLETS : Rat)
    let died := roll < deathProbability
    let loserNickname := ((playerOf s loser).map (·.nickname)).getD (roleName loser)
    if died then
      (⟨false, deathProbability, roll, loserNickname ++ " died!"⟩,
       { setBullets s loser 0 with phase := .GAME_OVER })
    else
      (⟨true, deathProbability, roll, loserNickname ++ " survived!"⟩,
       { s with phase := .GAME_OVER })

/-- `getAvailableActions` from gameLogic.js. -/
def getAvailableActions (s : GameState) : List String :=
  match s.activePlayer with
  | none => []
  | some player =>
    let opponent := opponentOf player
    let playerBullets := bulletsOf s player
    let playerCommitted := committedOf s player
    let opponentCommitted := committedOf s opponent
    let actions := [ACTIONS_FOLD]
    let actions :=
      if opponentCommitted > playerCommitted then
        (if playerBullets ≥ opponentCommitted - playerCommitted then
          actions ++ [ACTIONS_CALL] else actions)
      else
        (if playerBullets ≥ 1 then actions ++ [ACTIONS_CALL] else actions)
    let actions := if playerBullets > 0 then actions ++ [ACTIONS_ALL_IN] else actions
    actions

/-! ## Card exchange (backend/server.js, `executeSwitch` handler) -/

structure SwitchResult where
  success : Bool
  message : String
deriving DecidableEq, Repr

/-- The `executeSwitch` socket handler from server.js (lines 374..414).
`role` is the server-derived seat of the caller (a viewer maps to the
`none` seat record and is rejected).  `cardIndex` and `newCard` come
from the client. -/
def executeSwitch (s : GameState) (role : Player) (cardIndex : Int)
    (newCard : Card) : SwitchResult × GameState :=
  match playerOf s role with
  | none => (⟨false, "Cannot switch cards"⟩, s)
  | some player =>
    if player.hasSwitched then (⟨false, "Cannot switch cards"⟩, s)
    else if s.player1Bullets = 0 ∨ s.player2Bullets = 0 then
      (⟨false, "Cannot switch when someone is all-in"⟩, s)
    else
      let hand := handOf s role
      if cardIndex < 0 ∨ cardIndex ≥ hand.length then
        (⟨false, "Invalid card index"⟩, s)
      else
        let idx := cardIndex.toNat
        let oldCard := hand.getD idx defaultCard
        let newHand := hand.set idx newCard
        let newDeck :=
          (s.deck.filter (fun c => c.rank ≠ newCard.rank ∨ c.suit ≠ newCard.suit)) ++ [oldCard]
        let s := setHand s role newHand
        let s := { s with deck := newDeck }
        let s := setPlayerInfo s role (some { player with hasSwitched := true })
        (⟨true, "switchSuccess"⟩, s)

/-! ## Claims -/

/-- C10: `resetGame` restores both seats to the full starting count of 8
bullets (`MAX_BULLETS`), clears all per-hand state (deck, community
cards, pot, current bet, commitments, hole cards, active player, last
action, winner, loser, hand result) and returns the phase to `WAITING`,
so a reset after `GAME_OVER` begins a fresh match instead of continuing
with the surviving bullet counts. -/
theorem resetGame_spec (s : GameState) :
    (resetGame s).player1Bullets = MAX_BULLETS ∧
    (resetGame s).player2Bullets = MAX_BULLETS ∧
    MAX_BULLETS = 8 ∧
    (resetGame s).phase = .WAITING ∧
    (resetGame s).deck = [] ∧
    (resetGame s).communityCards = [] ∧
    (resetGame s).pot = 0 ∧
    (resetGame s).currentBet = 0 ∧
    (resetGame s).player1Hand = [] ∧
    (resetGame s).player2Hand = [] ∧
    (resetGame s).player1Committed = 0 ∧
    (resetGame s).player2Committed = 0 ∧
    (resetGame s).activePlayer = none ∧
    (resetGame s).lastAction = none ∧
    (resetGame s).winner = none ∧
    (resetGame s).loser = none ∧
    (resetGame s).handResult = none :=
  ⟨rfl, rfl, rfl, rfl, rfl, rfl, rfl, rfl, rfl, rfl, rfl, rfl, rfl, rfl, rfl, rfl, rfl⟩

/-- C1 (amended): for a betting state with an acting seat, the computed
action set contains FOLD always; contains CALL iff the opponent has
committed more and the seat covers the gap, or the opponent has
committed no more and the seat has at least 1 bullet; contains ALL_IN
iff the seat has more than 0 bullets; and never contains RAISE (the
source never offers RAISE even when the seat could cover the call gap
plus the raise increment). -/
theorem getAvailableActions_spec (s : GameState) (p : Player)
    (hact : s.activePlayer = some p)
    (hph : s.phase = .PREFLOP ∨ s.phase = .FLOP ∨ s.phase = .TURN ∨ s.phase = .RIVER) :
    ACTIONS_FOLD ∈ getAvailableActions s ∧
    (ACTIONS_CALL ∈ getAvailableActions s ↔
      ((committedOf s (opponentOf p) > committedOf s p ∧
        bulletsOf s p ≥ committedOf s (opponentOf p) - committedOf s p) ∨
       (committedOf s (opponentOf p) ≤ committedOf s p ∧ bulletsOf s p ≥ 1))) ∧
    (ACTIONS_ALL_IN ∈ getAvailableActions s ↔ bulletsOf s p > 0) ∧
    ACTIONS_RAISE ∉ getAvailableActions s := by
  clear hph
  simp only [getAvailableActions, hact]
  split_ifs with h1 h2 h3 h3 h2 h3 h3 <;>
    simp [ACTIONS_FOLD, ACTIONS_CALL, ACTIONS_RAISE, ACTIONS_ALL_IN] <;>
    omega

def c1State : GameState :=
  { createGameState with
    phase := .PREFLOP, activePlayer := some .player1
    player1Bullets := 7, player2Bullets := 7
    player1Committed := 1, player2Committed := 1
    pot := 2, currentBet := 1 }

/-- C1 counterexample: in a PREFLOP state with equal commitments 1/1 and
7 bullets remaining, the acting seat covers the call gap (0) plus the
1-bullet raise increment, so the claim requires RAISE to be offered;
`getAvailableActions` does not contain RAISE. -/
theorem getAvailableActions_claim_cex :
    c1State.phase = .PREFLOP ∧
    c1State.activePlayer = some .player1 ∧
    bulletsOf c1State .player1 ≥
      (committedOf c1State .player2 - committedOf c1State .player1) + RAISE_AMOUNT ∧
    ACTIONS_RAISE ∉ getAvailableActions c1State := by decide

set_option maxHeartbeats 4000000 in
/-- C4: whenever `processAction` rejects an action (wrong turn, illegal
action type, failed CHECK precondition, or insufficient bullets) it
returns a failure with a non-empty descriptive message and leaves the
match state completely unchanged - no action is ever partially applied. -/
theorem processAction_failure_no_change (d : List Card) (s : GameState)
    (p : Player) (a : String)
    (h : (processAction d s p a).1.success = false) :
    (processAction d s p a).2 = s ∧ (processAction d s p a).1.message ≠ "" := by
  unfold processAction at h ⊢
  dsimp only at h ⊢
  split_ifs at h ⊢ <;> exact ⟨rfl, by simp⟩

/-- C4 witness: a CALL by player1 when nobody has the turn is rejected
without touching the state. -/
theorem processAction_failure_no_change_witness :
    (processAction [] createGameState .player1 ACTIONS_CALL).2 = createGameState ∧
    (processAction [] createGameState .player1 ACTIONS_CALL).1.message ≠ "" :=
  processAction_failure_no_change [] createGameState .player1 ACTIONS_CALL (by decide)

/-- C5: with a determined loser, the elimination roll uses death
probability `loserCommitted / 8` (8 = `MAX_BULLETS`, the fixed starting
bullet count, not the remaining bullets), the loser dies iff the drawn
roll is `< probability`; on death the loser keeps 0 bullets and the
phase becomes GAME_OVER, on survival the phase also becomes GAME_OVER
with both bullet counts unchanged. -/
theorem executeShoot_spec (roll : Rat) (s : GameState) (L : Player)
    (hL : s.loser = some L) :
    ((executeShoot roll s).1.probability = (committedOf s L : Rat) / 8) ∧
    ((executeShoot roll s).1.survived = false ↔ roll < (committedOf s L : Rat) / 8) ∧
    (roll < (committedOf s L : Rat) / 8 →
      bulletsOf (executeShoot roll s).2 L = 0 ∧
      (executeShoot roll s).2.phase = .GAME_OVER) ∧
    (¬ roll < (committedOf s L : Rat) / 8 →
      (executeShoot roll s).2.phase = .GAME_OVER ∧
      (executeShoot roll s).2.player1Bullets = s.player1Bullets ∧
      (executeShoot roll s).2.player2Bullets = s.player2Bullets) := by
  have h8 : ((MAX_BULLETS : Int) : Rat) = 8 := by norm_num [MAX_BULLETS]
  unfold executeShoot
  rw [hL]
  dsimp only
  rw [h8]
  split_ifs with hd
  · refine ⟨rfl, by simp [hd], fun _ => ⟨?_, rfl⟩, fun hnd => absurd hd hnd⟩
    cases L <;> simp [setBullets, bulletsOf]
  · exact ⟨rfl, by simp [hd], fun hdd => absurd hdd hd, fun _ => ⟨rfl, rfl, rfl⟩⟩

def c5State : GameState :=
  { createGameState with loser := some .player1, player1Committed := 4, phase := .SHOOTING }

/-- C5 witness: a loser who committed 4 bullets faces probability 4/8 and
dies on a roll of 1/4. -/
theorem executeShoot_spec_witness :
    ((executeShoot (1/4) c5State).1.probability = (committedOf c5State .player1 : Rat) / 8) ∧
    ((executeShoot (1/4) c5State).1.survived = false ↔
      (1/4 : Rat) < (committedOf c5State .player1 : Rat) / 8) ∧
    ((1/4 : Rat) < (committedOf c5State .player1 : Rat) / 8 →
      bulletsOf (executeShoot (1/4) c5State).2 .player1 = 0 ∧
      (executeShoot (1/4) c5State).2.phase = .GAME_OVER) ∧
    (¬ (1/4 : Rat) < (committedOf c5State .player1 : Rat) / 8 →
      (executeShoot (1/4) c5State).2.phase = .GAME_OVER ∧
      (executeShoot (1/4) c5State).2.player1Bullets = c5State.player1Bullets ∧
      (executeShoot (1/4) c5State).2.player2Bullets = c5State.player2Bullets) :=
  executeShoot_spec (1/4) c5State .player1 rfl

set_option maxHeartbeats 4000000 in
/-- C2: when it is a seat turn, CALL requires a contribution of
`max(1, opponentCommitted - selfCommitted)`; it is rejected with the
insufficient-bullets failure iff the seat remaining bullets are below
that amount; on success exactly that amount moves from the seat
remaining bullets to its committed total and to the pot (the opponent
totals and the phase untouched at that point), after which the engine
advances the phase if the two commitments are now equal and otherwise
passes the turn to the opponent. -/
theorem processAction_call_spec (d : List Card) (s : GameState) (p : Player)
    (hact : s.activePlayer = some p) :
    (bulletsOf s p < max 1 (committedOf s (opponentOf p) - committedOf s p) →
      processAction d s p ACTIONS_CALL =
        (⟨false, "Not enough bullets to call"⟩, s)) ∧
    (max 1 (committedOf s (opponentOf p) - committedOf s p) ≤ bulletsOf s p →
      (processAction d s p ACTIONS_CALL).1.success = true ∧
      ∃ mid : GameState,
        bulletsOf mid p =
          bulletsOf s p - max 1 (committedOf s (opponentOf p) - committedOf s p) ∧
        committedOf mid p =
          committedOf s p + max 1 (committedOf s (opponentOf p) - committedOf s p) ∧
        mid.pot = s.pot + max 1 (committedOf s (opponentOf p) - committedOf s p) ∧
        bulletsOf mid (opponentOf p) = bulletsOf s (opponentOf p) ∧
        committedOf mid (opponentOf p) = committedOf s (opponentOf p) ∧
        mid.phase = s.phase ∧
        (committedOf mid p = committedOf mid (opponentOf p) →
          (processAction d s p ACTIONS_CALL).2 = advancePhase d mid) ∧
        (committedOf mid p ≠ committedOf mid (opponentOf p) →
          (processAction d s p ACTIONS_CALL).2 =
            { mid with activePlayer := some (opponentOf p) })) := by
  have hmax1 : ∀ a b : Int, (if a > b then a - b else 1) = max 1 (a - b) := by
    intro a b; split_ifs with h
    · exact (max_eq_right (by omega)).symm
    · exact (max_eq_left (by omega)).symm
  cases p
  · unfold processAction
    rw [if_neg (by simp [hact])]
    rw [if_neg (show ¬(ACTIONS_CALL = ACTIONS_FOLD) by decide)]
    rw [if_neg (show ¬(ACTIONS_CALL = ACTIONS_CHECK) by decide)]
    rw [if_pos (show ACTIONS_CALL = ACTIONS_CALL from rfl)]
    dsimp only [opponentOf, bulletsOf, committedOf, setBullets, setCommitted]
    rw [hmax1]
    split_ifs with hfail heq
    · exact ⟨fun _ => rfl, fun hle => absurd hfail (not_lt.mpr hle)⟩
    · exact ⟨fun hlt => absurd hlt hfail, fun hle => ⟨rfl,
        ⟨{ s with
            player1Bullets := s.player1Bullets - max 1 (s.player2Committed - s.player1Committed)
            player1Committed := s.player1Committed + max 1 (s.player2Committed - s.player1Committed)
            pot := s.pot + max 1 (s.player2Committed - s.player1Committed)
            lastAction := some (.player1, ACTIONS_CALL) },
          rfl, rfl, rfl, rfl, rfl, rfl, fun _ => rfl, fun hne => absurd heq hne⟩⟩⟩
    · exact ⟨fun hlt => absurd hlt hfail, fun hle => ⟨rfl,
        ⟨{ s with
            player1Bullets := s.player1Bullets - max 1 (s.player2Committed - s.player1Committed)
            player1Committed := s.player1Committed + max 1 (s.player2Committed - s.player1Committed)
            pot := s.pot + max 1 (s.player2Committed - s.player1Committed)
            lastAction := some (.player1, ACTIONS_CALL) },
          rfl, rfl, rfl, rfl, rfl, rfl, fun hh => absurd hh heq, fun _ => rfl⟩⟩⟩
  · unfold processAction
    rw [if_neg (by simp [hact])]
    rw [if_neg (show ¬(ACTIONS_CALL = ACTIONS_FOLD) by decide)]
    rw [if_neg (show ¬(ACTIONS_CALL = ACTIONS_CHECK) by decide)]
    rw [if_pos (show ACTIONS_CALL = ACTIONS_CALL from rfl)]
    dsimp only [opponentOf, bulletsOf, committedOf, setBullets, setCommitted]
    rw [hmax1]
    split_ifs with hfail heq
    · exact ⟨fun _ => rfl, fun hle => absurd hfail (not_lt.mpr hle)⟩
    · exact ⟨fun hlt => absurd hlt hfail, fun hle => ⟨rfl,
        ⟨{ s with
            player2Bullets := s.player2Bullets - max 1 (s.player1Committed - s.player2Committed)
            player2Committed := s.player2Committed + max 1 (s.player1Committed - s.player2Committed)
            pot := s.pot + max 1 (s.player1Committed - s.player2Committed)
            lastAction := some (.player2, ACTIONS_CALL) },
          rfl, rfl, rfl, rfl, rfl, rfl, fun _ => rfl, fun hne => absurd heq hne⟩⟩⟩
    · exact ⟨fun hlt => absurd hlt hfail, fun hle => ⟨rfl,
        ⟨{ s with
            player2Bullets := s.player2Bullets - max 1 (s.player1Committed - s.player2Committed)
            player2Committed := s.player2Committed + max 1 (s.player1Committed - s.player2Committed)
            pot := s.pot + max 1 (s.player1Committed - s.player2Committed)
            lastAction := some (.player2, ACTIONS_CALL) },
          rfl, rfl, rfl, rfl, rfl, rfl, fun hh => absurd hh heq, fun _ => rfl⟩⟩⟩

def c2State : GameState :=
  { createGameState with
    phase := .PREFLOP, activePlayer := some .player1
    player1Bullets := 7, player2Bullets := 6
    player1Committed := 1, player2Committed := 2
    pot := 3, currentBet := 2 }

/-- C2 witness: with commitments 1 vs 2 and 7 bullets, the CALL of
`max(1, 2 - 1) = 1` bullet succeeds. -/
theorem processAction_call_spec_witness :
    (processAction [] c2State .player1 ACTIONS_CALL).1.success = true :=
  ((processAction_call_spec [] c2State .player1 rfl).2 (by decide)).1

lemma getLast?_toList_length (l : List Card) (h : l ≠ []) :
    l.getLast?.toList.length = 1 := by
  cases hl : l.getLast? with
  | none => exact absurd hl (by simpa using List.getLast?_isSome.mpr h)
  | some c => rfl

/-- Street-level behaviour of `advancePhase` outside the both-all-in
shortcut: each street deals the expected community cards and resets the
turn to seat 1; RIVER hands over to showdown resolution. -/
lemma advancePhase_street_facts (d : List Card) (s : GameState)
    (hnz : ¬(s.player1Bullets = 0 ∧ s.player2Bullets = 0)) :
    (s.phase = .PREFLOP → 3 ≤ s.deck.length →
      (advancePhase d s).phase = .FLOP ∧
      (advancePhase d s).communityCards.length = 3 ∧
      (advancePhase d s).activePlayer = some .player1) ∧
    (s.phase = .FLOP → 1 ≤ s.deck.length →
      (advancePhase d s).phase = .TURN ∧
      (advancePhase d s).communityCards.length = s.communityCards.length + 1 ∧
      (advancePhase d s).activePlayer = some .player1) ∧
    (s.phase = .TURN → 1 ≤ s.deck.length →
      (advancePhase d s).phase = .RIVER ∧
      (advancePhase d s).communityCards.length = s.communityCards.length + 1 ∧
      (advancePhase d s).activePlayer = some .player1) ∧
    (s.phase = .RIVER →
      advancePhase d s = determineWinner d { s with phase := .SHOWDOWN }) := by
  unfold advancePhase
  rw [if_neg hnz]
  refine ⟨fun h1 hd => ?_, fun h1 hd => ?_, fun h1 hd => ?_, fun h1 => ?_⟩ <;>
    rw [h1] <;> dsimp only
  · refine ⟨rfl, ?_, rfl⟩
    have e1 : s.deck ≠ [] := List.ne_nil_of_length_pos (by omega)
    have e2 : s.deck.dropLast ≠ [] := by
      apply List.ne_nil_of_length_pos
      rw [List.length_dropLast]; omega
    have e3 : s.deck.dropLast.dropLast ≠ [] := by
      apply List.ne_nil_of_length_pos
      rw [List.length_dropLast, List.length_dropLast]; omega
    simp [jsPop, List.length_append, getLast?_toList_length _ e1,
      getLast?_toList_length _ e2, getLast?_toList_length _ e3]
  · refine ⟨rfl, ?_, rfl⟩
    have e1 : s.deck ≠ [] := List.ne_nil_of_length_pos (by omega)
    simp [jsPop, List.length_append, getLast?_toList_length _ e1]
  · refine ⟨rfl, ?_, rfl⟩
    have e1 : s.deck ≠ [] := List.ne_nil_of_length_pos (by omega)
    simp [jsPop, List.length_append, getLast?_toList_length _ e1]

set_option maxHeartbeats 4000000 in
/-- C7: in a betting phase, a CHECK by the acting seat is rejected with
no state change when the two commitments differ; when they are equal the
CHECK succeeds and the phase advances unconditionally after that single
check - dealing the next street and resetting the turn to seat 1, or
triggering showdown resolution from RIVER (shown here outside the
both-all-in shortcut of `advancePhase`). -/
theorem processAction_check_spec (d : List Card) (s : GameState) (p : Player)
    (hact : s.activePlayer = some p)
    (hph : s.phase = .PREFLOP ∨ s.phase = .FLOP ∨ s.phase = .TURN ∨ s.phase = .RIVER) :
    (committedOf s p ≠ committedOf s (opponentOf p) →
      processAction d s p ACTIONS_CHECK =
        (⟨false, "Cannot check, must call or fold"⟩, s)) ∧
    (committedOf s p = committedOf s (opponentOf p) →
      (processAction d s p ACTIONS_CHECK).1.success = true ∧
      (processAction d s p ACTIONS_CHECK).2 =
        advancePhase d { s with lastAction := some (p, ACTIONS_CHECK) } ∧
      (¬(s.player1Bullets = 0 ∧ s.player2Bullets = 0) →
        (s.phase = .PREFLOP → 3 ≤ s.deck.length →
          (processAction d s p ACTIONS_CHECK).2.phase = .FLOP ∧
          (processAction d s p ACTIONS_CHECK).2.communityCards.length = 3 ∧
          (processAction d s p ACTIONS_CHECK).2.activePlayer = some .player1) ∧
        (s.phase = .FLOP → 1 ≤ s.deck.length →
          (processAction d s p ACTIONS_CHECK).2.phase = .TURN ∧
          (processAction d s p ACTIONS_CHECK).2.communityCards.length =
            s.communityCards.length + 1 ∧
          (processAction d s p ACTIONS_CHECK).2.activePlayer = some .player1) ∧
        (s.phase = .TURN → 1 ≤ s.deck.length →
          (processAction d s p ACTIONS_CHECK).2.phase = .RIVER ∧
          (processAction d s p ACTIONS_CHECK).2.communityCards.length =
            s.communityCards.length + 1 ∧
          (processAction d s p ACTIONS_CHECK).2.activePlayer = some .player1) ∧
        (s.phase = .RIVER →
          (processAction d s p ACTIONS_CHECK).2 =
            determineWinner d
              { s with lastAction := some (p, ACTIONS_CHECK), phase := .SHOWDOWN }))) := by
  clear hph
  unfold processAction
  rw [if_neg (by simp [hact])]
  rw [if_neg (show ¬(ACTIONS_CHECK = ACTIONS_FOLD) by decide)]
  rw [if_pos (show ACTIONS_CHECK = ACTIONS_CHECK from rfl)]
  dsimp only
  split_ifs with hne
  · exact ⟨fun _ => rfl, fun heq => absurd heq hne⟩
  · refine ⟨fun hx => absurd hx hne, fun heq => ⟨rfl, rfl, fun hnz => ?_⟩⟩
    have hfacts := advancePhase_street_facts d
      { s with lastAction := some (p, ACTIONS_CHECK) } hnz
    exact hfacts

def c7State : GameState :=
  { createGameState with
    phase := .PREFLOP, activePlayer := some .player1
    player1Bullets := 7, player2Bullets := 7
    player1Committed := 1, player2Committed := 1, pot := 2, currentBet := 1
    deck := [⟨"2", "♠", 2⟩, ⟨"3", "♠", 3⟩, ⟨"4", "♠", 4⟩, ⟨"5", "♠", 5⟩] }

/-- C7 witness: a PREFLOP check with equal commitments 1/1 advances to
FLOP with 3 community cards and the turn reset to seat 1. -/
theorem processAction_check_spec_witness :
    (processAction [] c7State .player1 ACTIONS_CHECK).1.success = true ∧
    (processAction [] c7State .player1 ACTIONS_CHECK).2.phase = .FLOP ∧
    (processAction [] c7State .player1 ACTIONS_CHECK).2.communityCards.length = 3 ∧
    (processAction [] c7State .player1 ACTIONS_CHECK).2.activePlayer = some .player1 := by
  have h2 := (processAction_check_spec [] c7State .player1 rfl (Or.inl rfl)).2 rfl
  have hf := (h2.2.2 (by decide)).1 rfl (by decide)
  exact ⟨h2.1, hf.1, hf.2.1, hf.2.2⟩

def c8Board : List Card :=
  [⟨"10", "♠", 10⟩, ⟨"J", "♠", 11⟩, ⟨"Q", "♠", 12⟩, ⟨"K", "♠", 13⟩, ⟨"A", "♠", 14⟩]

def c8RF : EvaluatedHand :=
  { rank := 10, value := [14], description := "Royal Flush", cards := c8Board }


/-- C8: when the two best 5-of-7 hands compare exactly equal at
showdown, winner and loser are both cleared, the hand-start routine is
invoked immediately on the cleared state (fresh deck, antes collected
again when both seats still have bullets, giving phase PREFLOP), no
SHOOTING phase is ever entered, and hence no elimination roll occurs. -/
theorem determineWinner_tie_spec (d : List Card) (s : GameState)
    (h1 h2 : EvaluatedHand)
    (hf1 : findBestHand s.player1Hand s.communityCards = some h1)
    (hf2 : findBestHand s.player2Hand s.communityCards = some h2)
    (hcmp : compareHands h1 h2 = 0) :
    determineWinner d s =
      startNewHand d { s with winner := none, loser := none, handResult := some (h1, h2) } ∧
    (determineWinner d s).winner = none ∧
    (determineWinner d s).loser = none ∧
    (determineWinner d s).phase ≠ .SHOOTING ∧
    (0 < s.player1Bullets → 0 < s.player2Bullets →
      (determineWinner d s).phase = .PREFLOP ∧
      (determineWinner d s).player1Committed = min 1 s.player1Bullets ∧
      (determineWinner d s).player2Committed = min 1 s.player2Bullets ∧
      (determineWinner d s).pot = min 1 s.player1Bullets + min 1 s.player2Bullets) := by
  have hdw : determineWinner d s =
      startNewHand d { s with winner := none, loser := none, handResult := some (h1, h2) } := by
    unfold determineWinner
    rw [hf1, hf2]
    dsimp only
    rw [hcmp]
    norm_num
  refine ⟨hdw, ?_⟩
  rw [hdw]
  unfold startNewHand
  split_ifs with hg
  · refine ⟨rfl, rfl, by simp, fun hb1 hb2 => absurd hg (by dsimp only; omega)⟩
  · exact ⟨rfl, rfl, by simp, fun _ _ => ⟨rfl, rfl, rfl, rfl⟩⟩

def c8State : GameState :=
  { createGameState with
    phase := .SHOWDOWN
    player1Hand := [⟨"2", "♥", 2⟩, ⟨"3", "♥", 3⟩]
    player2Hand := [⟨"2", "♦", 2⟩, ⟨"3", "♦", 3⟩]
    communityCards := c8Board
    player1Bullets := 3, player2Bullets := 3
    pot := 8, player1Committed := 4, player2Committed := 4 }

/-- C8 witness: with a royal flush on the board both seats tie exactly;
the tie clears winner/loser and a fresh hand starts (PREFLOP), never
SHOOTING. -/
theorem determineWinner_tie_spec_witness :
    (determineWinner createDeck c8State).winner = none ∧
    (determineWinner createDeck c8State).loser = none ∧
    (determineWinner createDeck c8State).phase ≠ .SHOOTING ∧
    (determineWinner createDeck c8State).phase = .PREFLOP := by
  have h := determineWinner_tie_spec createDeck c8State c8RF c8RF
    (by decide) (by decide) (by decide)
  exact ⟨h.2.1, h.2.2.1, h.2.2.2.1, (h.2.2.2.2 (by decide) (by decide)).1⟩

lemma sortAsc_perm_eq {l1 l2 : List Nat} (h : l1.Perm l2) : sortAsc l1 = sortAsc l2 := by
  unfold sortAsc
  exact List.eq_of_perm_of_sorted
    ((List.perm_insertionSort _ l1).trans (h.trans (List.perm_insertionSort _ l2).symm))
    (List.sorted_insertionSort _ l1) (List.sorted_insertionSort _ l2)

lemma isFlush_eq_true_iff (l : List Card) :
    isFlush l = true ↔ ∀ x ∈ l, ∀ y ∈ l, x.suit = y.suit := by
  cases l with
  | nil => simp [isFlush]
  | cons c0 rest =>
    simp only [isFlush, List.all_eq_true, beq_iff_eq]
    constructor
    · intro h x hx y hy
      rw [h x hx, h y hy]
    · intro h c hc
      exact h c hc c0 (List.mem_cons_self c0 rest)

lemma isFlush_perm {l1 l2 : List Card} (h : l1.Perm l2) : isFlush l1 = isFlush l2 := by
  have hiff : isFlush l1 = true ↔ isFlush l2 = true := by
    rw [isFlush_eq_true_iff, isFlush_eq_true_iff]
    constructor
    · intro hf x hx y hy; exact hf x (h.mem_iff.mpr hx) y (h.mem_iff.mpr hy)
    · intro hf x hx y hy; exact hf x (h.mem_iff.mp hx) y (h.mem_iff.mp hy)
  cases hb1 : isFlush l1 <;> cases hb2 : isFlush l2 <;> simp_all

lemma evalFrom_rank_bounds (f : Bool) (sorted : List Nat) (cnt : Nat → Nat) :
    1 ≤ (evalFrom f sorted cnt).rank ∧ (evalFrom f sorted cnt).rank ≤ 10 := by
  unfold evalFrom
  dsimp only
  split_ifs <;> exact ⟨by norm_num, by norm_num⟩

/-- C9: `evaluateHand` returns, for 5-card inputs, a category in the
range 1..10 together with its tie-break vector, and the whole result
(category, tie-break vector, description) is invariant under every
permutation of the input cards. -/
theorem evaluateHand_perm_spec (l1 l2 : List Card) (hp : l1.Perm l2) :
    evaluateHand l1 = evaluateHand l2 ∧
    (∀ e, evaluateHand l1 = some e → 1 ≤ e.rank ∧ e.rank ≤ 10) := by
  constructor
  · unfold evaluateHand
    rw [hp.length_eq]
    by_cases h5 : l2.length = 5
    · rw [if_pos h5, if_pos h5]
      have e1 : isFlush l1 = isFlush l2 := isFlush_perm hp
      have e2 : sortAsc (l1.map (·.value)) = sortAsc (l2.map (·.value)) :=
        sortAsc_perm_eq (hp.map _)
      have e3 : (fun v => (l1.map (·.value)).count v) =
          (fun v => (l2.map (·.value)).count v) :=
        funext fun v => (hp.map _).count_eq v
      rw [e1, e2, e3]
    · rw [if_neg h5, if_neg h5]
  · intro e he
    unfold evaluateHand at he
    split_ifs at he
    · exact (Option.some.inj he) ▸ evalFrom_rank_bounds _ _ _

/-- C9 witness: the royal flush evaluated in two different input orders
gives the identical result, with category 10 inside the range. -/
theorem evaluateHand_perm_spec_witness :
    evaluateHand
        [⟨"A", "♠", 14⟩, ⟨"K", "♠", 13⟩, ⟨"Q", "♠", 12⟩, ⟨"J", "♠", 11⟩, ⟨"10", "♠", 10⟩] =
      evaluateHand
        [⟨"10", "♠", 10⟩, ⟨"J", "♠", 11⟩, ⟨"Q", "♠", 12⟩, ⟨"K", "♠", 13⟩, ⟨"A", "♠", 14⟩] ∧
    (∀ e,
      evaluateHand
          [⟨"A", "♠", 14⟩, ⟨"K", "♠", 13⟩, ⟨"Q", "♠", 12⟩, ⟨"J", "♠", 11⟩, ⟨"10", "♠", 10⟩] =
        some e → 1 ≤ e.rank ∧ e.rank ≤ 10) :=
  evaluateHand_perm_spec _ _ (by decide)

lemma filter_not_of_countP_one {α : Type} [DecidableEq α] (p : α → Bool) :
    ∀ (l : List α) (x : α), x ∈ l → p x = true → l.countP p = 1 →
      l.filter (fun a => !p a) = l.erase x := by
  intro l
  induction l with
  | nil => intro x hx _ _; cases hx
  | cons h t ih =>
    intro x hx hpx hcount
    rw [List.countP_cons] at hcount
    by_cases hph : p h = true
    · rw [if_pos hph] at hcount
      have ht0 : t.countP p = 0 := by omega
      have hxh : x = h := by
        rcases List.mem_cons.mp hx with h1 | h2
        · exact h1
        · exfalso
          have hpos : 0 < t.countP p := List.countP_pos_iff.mpr ⟨x, h2, hpx⟩
          omega
      subst hxh
      rw [List.erase_cons_head, List.filter_cons]
      simp only [hph, Bool.not_true, Bool.false_eq_true, ite_false]
      apply List.filter_eq_self.mpr
      intro a ha
      have hz := List.countP_eq_zero.mp ht0 a ha
      simp [hz]
    · have hxh : x ≠ h := fun he => hph (he ▸ hpx)
      have hx' : x ∈ t := by
        rcases List.mem_cons.mp hx with h1 | h2
        · exact absurd h1 hxh
        · exact h2
      have hcount' : t.countP p = 1 := by rw [if_neg hph] at hcount; omega
      have hbne : ¬(h == x) := by
        simp only [beq_iff_eq]
        exact fun he => hxh he.symm
      rw [List.filter_cons, List.erase_cons_tail hbne]
      have hnp : (!p h) = true := by simp [hph]
      rw [if_pos hnp, ih x hx' hpx hcount']

lemma set_getD_multiset {α : Type} (d0 : α) :
    ∀ (l : List α) (n : Nat) (x : α), n < l.length →
      (↑(l.set n x) : Multiset α) + {l.getD n d0} = (↑l : Multiset α) + {x} := by
  intro l
  induction l with
  | nil => intro n x hn; simp at hn
  | cons h t ih =>
    intro n x hn
    cases n with
    | zero =>
      simp only [List.set, List.getD, List.get?, Option.getD]
      rw [← Multiset.cons_coe, ← Multiset.cons_coe,
        ← Multiset.singleton_add, ← Multiset.singleton_add]
      abel
    | succ m =>
      have hm : m < t.length := by simpa using hn
      simp only [List.set, List.getD_cons_succ]
      rw [← Multiset.cons_coe, ← Multiset.cons_coe]
      rw [Multiset.cons_add, Multiset.cons_add]
      rw [ih m x hm]

set_option maxHeartbeats 4000000 in
/-- C6 (amended): the card-exchange handler fails (with no state change)
exactly when the seat has already exchanged this hand, when either seat
is at 0 remaining bullets, or when the hand-card index is out of range.
It performs no membership check of the chosen card against the undealt
deck.  On success it swaps the chosen hole card with the chosen card,
appends the discarded hole card to the filtered deck and sets the
exchange flag; the multiset of cards in deck and hands and community is
preserved provided the chosen card occurs in the deck and exactly one
deck card matches its (rank, suit) identity. -/
theorem executeSwitch_spec (s : GameState) (role : Player) (pi : PlayerInfo)
    (cardIndex : Int) (newCard : Card)
    (hpi : playerOf s role = some pi) :
    (pi.hasSwitched = true →
      executeSwitch s role cardIndex newCard = (⟨false, "Cannot switch cards"⟩, s)) ∧
    (pi.hasSwitched = false →
      (s.player1Bullets = 0 ∨ s.player2Bullets = 0) →
      executeSwitch s role cardIndex newCard =
        (⟨false, "Cannot switch when someone is all-in"⟩, s)) ∧
    (pi.hasSwitched = false →
      ¬(s.player1Bullets = 0 ∨ s.player2Bullets = 0) →
      (cardIndex < 0 ∨ cardIndex ≥ (handOf s role).length) →
      executeSwitch s role cardIndex newCard = (⟨false, "Invalid card index"⟩, s)) ∧
    (pi.hasSwitched = false →
      ¬(s.player1Bullets = 0 ∨ s.player2Bullets = 0) →
      ¬(cardIndex < 0 ∨ cardIndex ≥ (handOf s role).length) →
      (executeSwitch s role cardIndex newCard).1.success = true ∧
      handOf (executeSwitch s role cardIndex newCard).2 role =
        (handOf s role).set cardIndex.toNat newCard ∧
      (executeSwitch s role cardIndex newCard).2.deck =
        (s.deck.filter (fun c => c.rank ≠ newCard.rank ∨ c.suit ≠ newCard.suit))
          ++ [(handOf s role).getD cardIndex.toNat defaultCard] ∧
      playerOf (executeSwitch s role cardIndex newCard).2 role =
        some { pi with hasSwitched := true } ∧
      (newCard ∈ s.deck →
       s.deck.countP (fun x => x.rank == newCard.rank && x.suit == newCard.suit) = 1 →
       ((executeSwitch s role cardIndex newCard).2.deck : Multiset Card) +
         ↑(executeSwitch s role cardIndex newCard).2.player1Hand +
         ↑(executeSwitch s role cardIndex newCard).2.player2Hand +
         ↑(executeSwitch s role cardIndex newCard).2.communityCards =
       (s.deck : Multiset Card) + ↑s.player1Hand + ↑s.player2Hand +
         ↑s.communityCards)) := by
  have hfilter : ∀ (hmem : newCard ∈ s.deck),
      s.deck.countP (fun x => x.rank == newCard.rank && x.suit == newCard.suit) = 1 →
      s.deck.filter (fun c => decide (c.rank ≠ newCard.rank ∨ c.suit ≠ newCard.suit)) =
        s.deck.erase newCard := by
    intro hmem huniq
    have hbridge : (fun c : Card => decide (c.rank ≠ newCard.rank ∨ c.suit ≠ newCard.suit)) =
        (fun c => !(c.rank == newCard.rank && c.suit == newCard.suit)) := by
      funext c
      by_cases hr : c.rank = newCard.rank <;> by_cases hsu : c.suit = newCard.suit <;>
        simp [hr, hsu]
    rw [hbridge]
    exact filter_not_of_countP_one _ s.deck newCard hmem (by simp) huniq
  have hdeckm : ∀ (hmem : newCard ∈ s.deck),
      (↑(s.deck.erase newCard) : Multiset Card) + {newCard} = ↑s.deck := by
    intro hmem
    rw [← Multiset.coe_erase, add_comm, Multiset.singleton_add]
    exact Multiset.cons_erase (by exact_mod_cast hmem)
  cases role
  · dsimp only [playerOf] at hpi
    unfold executeSwitch
    dsimp only [playerOf, handOf, setHand, setPlayerInfo]
    rw [hpi]
    dsimp only
    split_ifs with h1 h2 h3
    · exact ⟨fun _ => rfl,
        fun hf => absurd h1 (by simp [hf]),
        fun hf _ _ => absurd h1 (by simp [hf]),
        fun hf _ _ => absurd h1 (by simp [hf])⟩
    · exact ⟨fun ht => absurd ht (by simp [h1]),
        fun _ _ => rfl,
        fun _ hna _ => absurd h2 hna,
        fun _ hna _ => absurd h2 hna⟩
    · exact ⟨fun ht => absurd ht (by simp [h1]),
        fun _ ha => absurd ha h2,
        fun _ _ _ => rfl,
        fun _ _ hni => absurd h3 hni⟩
    · refine ⟨fun ht => absurd ht (by simp [h1]),
        fun _ ha => absurd ha h2,
        fun _ _ hi => absurd hi h3,
        fun _ _ _ => ⟨rfl, rfl, rfl, rfl, fun hmem huniq => ?_⟩⟩
      have hlen : (cardIndex.toNat) < s.player1Hand.length := by
        push_neg at h3
        omega
      have hset := set_getD_multiset defaultCard s.player1Hand cardIndex.toNat newCard hlen
      have hfe := hfilter hmem huniq
      have hdm := hdeckm hmem
      dsimp only
      rw [hfe]
      apply Multiset.ext.mpr
      intro a
      have e1 := congrArg (Multiset.count a) hset
      have e2 := congrArg (Multiset.count a) hdm
      simp only [Multiset.count_add, ← Multiset.coe_singleton,
        Multiset.coe_count, List.count_append] at e1 e2 ⊢
      omega
  · dsimp only [playerOf] at hpi
    unfold executeSwitch
    dsimp only [playerOf, handOf, setHand, setPlayerInfo]
    rw [hpi]
    dsimp only
    split_ifs with h1 h2 h3
    · exact ⟨fun _ => rfl,
        fun hf => absurd h1 (by simp [hf]),
        fun hf _ _ => absurd h1 (by simp [hf]),
        fun hf _ _ => absurd h1 (by simp [hf])⟩
    · exact ⟨fun ht => absurd ht (by simp [h1]),
        fun _ _ => rfl,
        fun _ hna _ => absurd h2 hna,
        fun _ hna _ => absurd h2 hna⟩
    · exact ⟨fun ht => absurd ht (by simp [h1]),
        fun _ ha => absurd ha h2,
        fun _ _ _ => rfl,
        fun _ _ hni => absurd h3 hni⟩
    · refine ⟨fun ht => absurd ht (by simp [h1]),
        fun _ ha => absurd ha h2,
        fun _ _ hi => absurd hi h3,
        fun _ _ _ => ⟨rfl, rfl, rfl, rfl, fun hmem huniq => ?_⟩⟩
      have hlen : (cardIndex.toNat) < s.player2Hand.length := by
        push_neg at h3
        omega
      have hset := set_getD_multiset defaultCard s.player2Hand cardIndex.toNat newCard hlen
      have hfe := hfilter hmem huniq
      have hdm := hdeckm hmem
      dsimp only
      rw [hfe]
      apply Multiset.ext.mpr
      intro a
      have e1 := congrArg (Multiset.count a) hset
      have e2 := congrArg (Multiset.count a) hdm
      simp only [Multiset.count_add, ← Multiset.coe_singleton,
        Multiset.coe_count, List.count_append] at e1 e2 ⊢
      omega

def c6State : GameState :=
  { createGameState with
    phase := .PREFLOP
    player1 := some ⟨"sock1", "P1", false⟩
    player2 := some ⟨"sock2", "P2", false⟩
    player1Bullets := 7, player2Bullets := 7
    player1Hand := [⟨"2", "♥", 2⟩, ⟨"3", "♥", 3⟩]
    player2Hand := [⟨"4", "♦", 4⟩, ⟨"5", "♦", 5⟩]
    communityCards := []
    deck := [⟨"A", "♠", 14⟩, ⟨"K", "♠", 13⟩] }

/-- C6 witness: exchanging hole card 0 for the ace of spades (present
exactly once in the deck) succeeds and preserves the card multiset. -/
theorem executeSwitch_spec_witness :
    (executeSwitch c6State .player1 0 ⟨"A", "♠", 14⟩).1.success = true ∧
    ((executeSwitch c6State .player1 0 ⟨"A", "♠", 14⟩).2.deck : Multiset Card) +
      ↑(executeSwitch c6State .player1 0 ⟨"A", "♠", 14⟩).2.player1Hand +
      ↑(executeSwitch c6State .player1 0 ⟨"A", "♠", 14⟩).2.player2Hand +
      ↑(executeSwitch c6State .player1 0 ⟨"A", "♠", 14⟩).2.communityCards =
    (c6State.deck : Multiset Card) + ↑c6State.player1Hand + ↑c6State.player2Hand +
      ↑c6State.communityCards := by
  have h := (executeSwitch_spec c6State .player1 ⟨"sock1", "P1", false⟩ 0
    ⟨"A", "♠", 14⟩ rfl).2.2.2 rfl (by decide) (by decide)
  exact ⟨h.1, h.2.2.2.2 (by decide) (by decide)⟩

/-- C6 counterexample: the queen of diamonds is not in the undealt deck,
yet the handler accepts the exchange (the claim requires failure), and
the 52-card partition is broken: the total count of that card across
deck, hands and community goes from 0 to 1. -/
theorem executeSwitch_claim_cex :
    (⟨"Q", "♦", 12⟩ : Card) ∉ c6State.deck ∧
    (executeSwitch c6State .player1 0 ⟨"Q", "♦", 12⟩).1.success = true ∧
    (c6State.deck ++ c6State.player1Hand ++ c6State.player2Hand ++
        c6State.communityCards).count ⟨"Q", "♦", 12⟩ = 0 ∧
    ((executeSwitch c6State .player1 0 ⟨"Q", "♦", 12⟩).2.deck ++
        (executeSwitch c6State .player1 0 ⟨"Q", "♦", 12⟩).2.player1Hand ++
        (executeSwitch c6State .player1 0 ⟨"Q", "♦", 12⟩).2.player2Hand ++
        (executeSwitch c6State .player1 0 ⟨"Q", "♦", 12⟩).2.communityCards).count
      ⟨"Q", "♦", 12⟩ = 1 := by decide

/-- C1 witness: the amended characterisation evaluated at the concrete
PREFLOP state with equal commitments and 7 bullets. -/
theorem getAvailableActions_spec_witness :
    ACTIONS_FOLD ∈ getAvailableActions c1State ∧
    (ACTIONS_CALL ∈ getAvailableActions c1State ↔
      ((committedOf c1State (opponentOf .player1) > committedOf c1State .player1 ∧
        bulletsOf c1State .player1 ≥
          committedOf c1State (opponentOf .player1) - committedOf c1State .player1) ∨
       (committedOf c1State (opponentOf .player1) ≤ committedOf c1State .player1 ∧
        bulletsOf c1State .player1 ≥ 1))) ∧
    (ACTIONS_ALL_IN ∈ getAvailableActions c1State ↔ bulletsOf c1State .player1 > 0) ∧
    ACTIONS_RAISE ∉ getAvailableActions c1State :=
  getAvailableActions_spec c1State .player1 rfl (Or.inl rfl)

/-- Bullet-conservation invariant of C3, strengthened for induction:
pot equals the two commitments, each commitment+remaining is bounded by
the hand-start count, and all four quantities are non-negative. -/
def BulletInv (S1 S2 : Int) (s : GameState) : Prop :=
  s.pot = s.player1Committed + s.player2Committed ∧
  s.player1Committed + s.player1Bullets ≤ S1 ∧
  s.player2Committed + s.player2Bullets ≤ S2 ∧
  0 ≤ s.player1Committed ∧ 0 ≤ s.player2Committed ∧
  0 ≤ s.player1Bullets ∧ 0 ≤ s.player2Bullets

lemma fillCommunity_money : ∀ (n : Nat) (s : GameState),
    (fillCommunity n s).pot = s.pot ∧
    (fillCommunity n s).player1Bullets = s.player1Bullets ∧
    (fillCommunity n s).player2Bullets = s.player2Bullets ∧
    (fillCommunity n s).player1Committed = s.player1Committed ∧
    (fillCommunity n s).player2Committed = s.player2Committed := by
  intro n
  induction n with
  | zero => intro s; exact ⟨rfl, rfl, rfl, rfl, rfl⟩
  | succ m ih =>
    intro s
    unfold fillCommunity
    split_ifs with h
    · exact ih _
    · exact ⟨rfl, rfl, rfl, rfl, rfl⟩

lemma startNewHand_inv (S1 S2 : Int) (d : List Card) (s : GameState)
    (h : BulletInv S1 S2 s) : BulletInv S1 S2 (startNewHand d s) := by
  unfold startNewHand
  split_ifs with hg
  · exact h
  · push_neg at hg
    have hb1 : 0 < s.player1Bullets := by omega
    have hb2 : 0 < s.player2Bullets := by omega
    have e1 : min ANTE_AMOUNT s.player1Bullets = 1 := by
      rw [show (ANTE_AMOUNT : Int) = 1 from rfl]
      exact min_eq_left (by omega)
    have e2 : min ANTE_AMOUNT s.player2Bullets = 1 := by
      rw [show (ANTE_AMOUNT : Int) = 1 from rfl]
      exact min_eq_left (by omega)
    obtain ⟨hp, h1, h2, hc1, hc2, hb1n, hb2n⟩ := h
    unfold BulletInv
    dsimp only
    rw [e1, e2]
    refine ⟨by omega, by omega, by omega, by omega, by omega, by omega, by omega⟩

lemma startNewHand_base (d : List Card) (s0 : GameState)
    (h1 : 0 < s0.player1Bullets) (h2 : 0 < s0.player2Bullets) :
    BulletInv s0.player1Bullets s0.player2Bullets (startNewHand d s0) := by
  unfold startNewHand
  rw [if_neg (by omega)]
  have e1 : min ANTE_AMOUNT s0.player1Bullets = 1 := by
    rw [show (ANTE_AMOUNT : Int) = 1 from rfl]
    exact min_eq_left (by omega)
  have e2 : min ANTE_AMOUNT s0.player2Bullets = 1 := by
    rw [show (ANTE_AMOUNT : Int) = 1 from rfl]
    exact min_eq_left (by omega)
  unfold BulletInv
  dsimp only
  rw [e1, e2]
  refine ⟨by omega, by omega, by omega, by omega, by omega, by omega, by omega⟩

lemma determineWinner_inv (S1 S2 : Int) (d : List Card) (s : GameState)
    (h : BulletInv S1 S2 s) : BulletInv S1 S2 (determineWinner d s) := by
  unfold determineWinner
  rcases findBestHand s.player1Hand s.communityCards with _ | h1 <;>
    rcases findBestHand s.player2Hand s.communityCards with _ | h2 <;>
    dsimp only
  · exact h
  · exact h
  · exact h
  · split_ifs <;>
      first
        | exact h
        | exact startNewHand_inv S1 S2 d _ h

lemma advancePhase_inv (S1 S2 : Int) (d : List Card) (s : GameState)
    (h : BulletInv S1 S2 s) : BulletInv S1 S2 (advancePhase d s) := by
  unfold advancePhase
  split_ifs with hz
  · apply determineWinner_inv
    obtain ⟨a, b, c, dd, e⟩ := fillCommunity_money 5 s
    obtain ⟨hp, hh1, hh2, hc1, hc2, hb1, hb2⟩ := h
    unfold BulletInv
    dsimp only
    rw [a, b, c, dd, e]
    exact ⟨hp, hh1, hh2, hc1, hc2, hb1, hb2⟩
  · cases hph : s.phase <;> dsimp only <;>
      first
        | exact h
        | exact determineWinner_inv S1 S2 d _ h

set_option maxHeartbeats 4000000 in
lemma processAction_inv (S1 S2 : Int) (d : List Card) (s : GameState)
    (p : Player) (a : String)
    (h : BulletInv S1 S2 s) : BulletInv S1 S2 (processAction d s p a).2 := by
  have hra : (RAISE_AMOUNT : Int) = 1 := rfl
  cases p <;>
  · unfold processAction
    dsimp only [opponentOf, bulletsOf, committedOf, setBullets, setCommitted]
    split_ifs <;>
      first
        | exact h
        | (apply advancePhase_inv
           obtain ⟨hp, hh1, hh2, hc1, hc2, hb1, hb2⟩ := h
           unfold BulletInv
           dsimp only
           omega)
        | (obtain ⟨hp, hh1, hh2, hc1, hc2, hb1, hb2⟩ := h
           unfold BulletInv
           dsimp only
           omega)

/-- States reachable from a hand start (`startNewHand` on a state whose
seats both still have bullets) through arbitrary `processAction` calls.
`S1`/`S2` record the per-seat bullet count at the start of the current
hand; a showdown tie inside a step starts the next hand internally, and
any such later hand start is itself covered by the `start` constructor. -/
inductive Reach : Int → Int → GameState → Prop where
  | start (d : List Card) (s0 : GameState)
      (h1 : 0 < s0.player1Bullets) (h2 : 0 < s0.player2Bullets) :
      Reach s0.player1Bullets s0.player2Bullets (startNewHand d s0)
  | step (S1 S2 : Int) (s : GameState) (p : Player) (a : String) (d : List Card)
      (h : Reach S1 S2 s) : Reach S1 S2 (processAction d s p a).2

lemma reach_inv (S1 S2 : Int) (s : GameState) (h : Reach S1 S2 s) :
    BulletInv S1 S2 s := by
  induction h with
  | start d s0 h1 h2 => exact startNewHand_base d s0 h1 h2
  | step S1 S2 s p a d h ih => exact processAction_inv S1 S2 d s p a ih

/-- C3: in every state reachable from a hand start via betting actions
(and the phase advancement they trigger), before any elimination roll,
the pot equals the sum of the committed amounts of both seats and, per
seat, committed + remaining bullets never exceeds the bullet count at
the start of the hand. -/
theorem reach_bullet_invariant (S1 S2 : Int) (s : GameState) (h : Reach S1 S2 s) :
    s.pot = s.player1Committed + s.player2Committed ∧
    s.player1Committed + s.player1Bullets ≤ S1 ∧
    s.player2Committed + s.player2Bullets ≤ S2 := by
  obtain ⟨a, b, c, _⟩ := reach_inv S1 S2 s h
  exact ⟨a, b, c⟩

/-- C3 witness: the invariant evaluated at the very first hand start of
a fresh match (8 bullets per seat). -/
theorem reach_bullet_invariant_witness :
    (startNewHand createDeck createGameState).pot =
      (startNewHand createDeck createGameState).player1Committed +
      (startNewHand createDeck createGameState).player2Committed ∧
    (startNewHand createDeck createGameState).player1Committed +
      (startNewHand createDeck createGameState).player1Bullets ≤ 8 ∧
    (startNewHand createDeck createGameState).player2Committed +
      (startNewHand createDeck createGameState).player2Bullets ≤ 8 :=
  reach_bullet_invariant 8 8 _
    (Reach.start createDeck createGameState (by decide) (by decide))
